import Mathlib

/-!
Verification development for the rag-site document Q&A pipeline.

The chunker (`src/chunker.py`), the embedding gateway (`src/llm.py`,
batching in `src/main.py`), the document store (`src/database.py`) and the
HTTP handlers (`src/main.py`) are embedded shallowly: pure functions become
Lean functions over token lists and strings, the database becomes an explicit
record of rows, and fallible handler code returns `Except`.
-/

namespace RagSite

/-! ### Chunker (src/chunker.py)

`chunk_text` encodes text to a token list, walks it with a window of
`CHUNK_SIZE` tokens advancing by `CHUNK_SIZE - CHUNK_OVERLAP`, and has a tail
branch guarded by `len(tokens) - start < 50`.  The tokenizer is an external
collaborator (tiktoken); all chunking logic acts on the token list, so the
core is embedded as a function on lists over an arbitrary token type. -/

def CHUNK_SIZE : Nat := 500

def CHUNK_OVERLAP : Nat := 50

/-- The literal `50` in the tail guard of `chunk_text` (src/chunker.py line 69);
the spec names it `MIN_TAIL`. -/
def MIN_TAIL : Nat := 50

/-- The `while start < len(tokens)` loop of `chunk_text` (src/chunker.py
lines 59–73).  Each iteration appends `tokens[start : start+CHUNK_SIZE]`,
advances `start` by `CHUNK_SIZE - CHUNK_OVERLAP`, and then, if
`start < len(tokens) and len(tokens) - start < 50`, appends `tokens[start:]`
and breaks out of the loop. -/
def chunkLoop (tokens : List α) (start : Nat) : List (List α) :=
  if _h : start < tokens.length then
    let chunk := (tokens.drop start).take CHUNK_SIZE
    let next := start + (CHUNK_SIZE - CHUNK_OVERLAP)
    if next < tokens.length ∧ tokens.length - next < MIN_TAIL then
      [chunk, tokens.drop next]
    else
      chunk :: chunkLoop tokens next
  else []
termination_by tokens.length - start
decreasing_by
  simp only [CHUNK_SIZE, CHUNK_OVERLAP]
  omega

/-- `chunk_text` at the token level: the loop started at `start = 0`. -/
def chunkTokens (tokens : List α) : List (List α) :=
  chunkLoop tokens 0

/-- Plain naive windowing without the tail branch: repeatedly emit
`tokens[start : start+CHUNK_SIZE]` and advance `start` by
`CHUNK_SIZE - CHUNK_OVERLAP` until `start ≥ len(tokens)`. -/
def naiveLoop (tokens : List α) (start : Nat) : List (List α) :=
  if _h : start < tokens.length then
    (tokens.drop start).take CHUNK_SIZE :: naiveLoop tokens (start + (CHUNK_SIZE - CHUNK_OVERLAP))
  else []
termination_by tokens.length - start
decreasing_by
  simp only [CHUNK_SIZE, CHUNK_OVERLAP]
  omega

/-- Naive windowing from position 0. -/
def naiveChunks (tokens : List α) : List (List α) :=
  naiveLoop tokens 0

/-- Concatenation of all chunks ignoring overlap duplication: the first chunk,
then every later chunk with its first `CHUNK_OVERLAP` tokens removed. -/
def dedupFlatten : List (List α) → List α
  | [] => []
  | c :: rest => c ++ (rest.map (List.drop CHUNK_OVERLAP)).flatten

/-! ### Embedding gateway (src/llm.py; batching in src/main.py lines 149–153)

`embed_texts` sends one ordered batch of texts to the embedding collaborator
and returns one vector per text in input order (the collaborator is
order-preserving, spec §6); it is embedded as mapping a per-text embedding
function over the batch.  `upload_document` partitions the chunk list into
batches of `BATCH_SIZE`, fires all batch calls concurrently with
`asyncio.gather`, and flattens the batch results in argument (batch) order. -/

def embed_texts (embed : σ → E) (texts : List σ) : List E :=
  texts.map embed

def BATCH_SIZE : Nat := 20

/-- `[chunks[i:i + BATCH_SIZE] for i in range(0, len(chunks), BATCH_SIZE)]`
(src/main.py line 151).  The `n = 0` guard only serves termination; the call
site always passes `BATCH_SIZE = 20`. -/
def toBatches (n : Nat) (l : List α) : List (List α) :=
  if _h : l.isEmpty ∨ n = 0 then [] else l.take n :: toBatches n (l.drop n)
termination_by l.length
decreasing_by
  push_neg at _h
  have hl : 0 < l.length := List.length_pos.mpr (by simpa [List.isEmpty_iff] using _h.1)
  rw [List.length_drop]
  omega

/-- `asyncio.gather` (src/main.py line 152): each concurrently issued call is
tagged with its argument index; whatever order the calls complete in
(`completed` lists the finished calls as (argument index, result) pairs in
completion order), slot `i` of the gathered list holds the result of call
`i`. -/
def gatherByIndex (n : Nat) (completed : List (Nat × β)) : Option (List β) :=
  (List.range n).mapM fun i => (completed.find? fun p => p.1 == i).map Prod.snd

/-! ### Identifier parsing (Python `uuid.UUID(str)`)

`delete_document`, `get_document_chunks` and `chat` parse caller-supplied
identifier strings with `uuid.UUID(...)`, catching `ValueError`.  Modelled
from the library's documented behaviour: remove `urn:` and `uuid:` markers,
strip surrounding braces, remove dashes, and require exactly 32 hexadecimal
digits (the value is the 128-bit integer they denote).  Python `int`-literal
quirks (`0x` prefixes, underscores) are not modelled; no claim depends on
them. -/

/-- One step of Python `str.replace(p, "")`: remove every non-overlapping
occurrence of `p`, scanning left to right.  The fuel argument (instantiated
with the list length, which bounds the number of scan steps) keeps the
recursion structural. -/
def removeAllAux (p : List Char) : Nat → List Char → List Char
  | _, [] => []
  | 0, cs => cs
  | fuel + 1, c :: cs =>
      if !p.isEmpty && p.isPrefixOf (c :: cs) then
        removeAllAux p fuel ((c :: cs).drop p.length)
      else c :: removeAllAux p fuel cs

def removeAll (p cs : List Char) : List Char :=
  removeAllAux p cs.length cs

def isBraceChar (c : Char) : Bool :=
  c == Char.ofNat 123 || c == Char.ofNat 125

def isHexChar (c : Char) : Bool :=
  c.isDigit || decide (97 ≤ c.toNat ∧ c.toNat ≤ 102) || decide (65 ≤ c.toNat ∧ c.toNat ≤ 70)

def hexCharVal (c : Char) : Nat :=
  if c.isDigit then c.toNat - 48
  else if 97 ≤ c.toNat ∧ c.toNat ≤ 102 then c.toNat - 87
  else c.toNat - 55

def parseUUID (s : String) : Option Nat :=
  let cs := removeAll "uuid:".data (removeAll "urn:".data s.data)
  let stripped := ((cs.dropWhile isBraceChar).reverse.dropWhile isBraceChar).reverse
  let hexs := stripped.filter fun c => !(c == '-')
  if hexs.length = 32 ∧ hexs.all isHexChar then
    some (hexs.foldl (fun acc c => acc * 16 + hexCharVal c) 0)
  else none

/-- Python `str.strip()`: remove leading and trailing (ASCII) whitespace. -/
def isPySpace (c : Char) : Bool :=
  c == ' ' || c == '\t' || c == '\n' || c == '\r' || c == Char.ofNat 11 || c == Char.ofNat 12

def pyStrip (s : String) : String :=
  ⟨((s.data.dropWhile isPySpace).reverse.dropWhile isPySpace).reverse⟩

/-! ### Document store and HTTP handlers (src/database.py, src/main.py)

Documents and chunks are rows; the database is the pair of row lists.  UUID
primary keys are modelled as naturals.  The embedding collaborators (the
tokenizer, the per-text embedding function, the distance operator `<=>`
against the query embedding) are parameters.  Fallible handler code returns
`Except`; an exception escaping the handler is an error value. -/

/-- Error outcomes distinguishable by the caller. -/
inductive ApiError
  | unsupportedType   -- HTTP 400: unsupported file extension
  | unprocessable     -- HTTP 422: parse failure or no extractable text
  | badRequest        -- HTTP 400: invalid document ID
  | notFound          -- HTTP 404
  | validationError   -- HTTP 422: pydantic request validation failure
  | dbError           -- HTTP 500: error raised by the database
  | pyTypeError       -- Python TypeError escaping the handler (HTTP 500)
  | pyAttributeError  -- Python AttributeError escaping the handler (HTTP 500)
  deriving DecidableEq

/-- A row of the `documents` table as `main.py` manipulates it.  `version` is
the value `upload_document` tries to store; whether `version` is actually a
declared attribute of the SQLAlchemy model is recorded by `documentAttrs`,
and every attribute access `main.py` makes on it is guarded accordingly.
The `uploaded_at` timestamp is set by the database and irrelevant to every
claim, so it is not carried. -/
structure DocRow where
  id : Nat
  filename : String
  version : Nat
  deriving DecidableEq

/-- A row of the `chunks` table (src/database.py lines 28–36).  The chunk's
own primary key is never consulted by any handler, so it is not carried. -/
structure ChunkRow (E : Type) where
  document_id : Nat
  content : String
  embedding : E
  chunk_index : Nat
  deriving DecidableEq

structure Store (E : Type) where
  documents : List DocRow
  chunks : List (ChunkRow E)
  deriving DecidableEq

/-- The attributes declared on the SQLAlchemy `Document` model
(src/database.py lines 19–25): the `id`, `filename`, `uploaded_at` columns
and the `chunks` relationship.  There is no `version` column, although
`main.py` reads and writes one. -/
def documentAttrs : List String :=
  ["id", "filename", "uploaded_at", "chunks"]

def SUPPORTED_EXTENSIONS : List String :=
  [".pdf", ".docx", ".txt", ".md", ".csv"]

def lowerChar (c : Char) : Char :=
  if 65 ≤ c.toNat ∧ c.toNat ≤ 90 then Char.ofNat (c.toNat + 32) else c

/-- `filename.lower()` at the character level. -/
def pyLower (s : String) : List Char :=
  s.data.map lowerChar

/-- `chunk_text` (src/chunker.py lines 50–75) on actual text: encode with the
tokenizer collaborator, run the token-level loop, decode each chunk. -/
def chunk_text (encode : String → List Nat) (decode : List Nat → String)
    (text : String) : List String :=
  (chunkTokens (encode text)).map decode

structure DocResponse where
  id : Nat
  filename : String
  chunk_count : Nat
  version : Nat
  deriving DecidableEq

/-- Step 5 of `upload_document` (src/main.py lines 163–186):
`Document(filename=..., version=next_version)` goes through SQLAlchemy's
declarative constructor, which raises `TypeError` for any keyword that is not
a declared attribute of the model; then one `Chunk` row is added per
(content, embedding) pair with its position as `chunk_index`, and the
transaction commits. -/
def insertNewDocument (st : Store E) (newId : Nat) (filename : String)
    (nextVersion : Nat) (chunks : List String) (embeddings : List E) :
    Except ApiError (Store E × DocResponse) :=
  if "filename" ∈ documentAttrs ∧ "version" ∈ documentAttrs then
    let doc : DocRow := ⟨newId, filename, nextVersion⟩
    let newChunks := (chunks.zip embeddings).enum.map fun p =>
      (⟨newId, p.2.1, p.2.2, p.1⟩ : ChunkRow E)
    .ok (⟨st.documents ++ [doc], st.chunks ++ newChunks⟩,
      ⟨newId, filename, chunks.length, nextVersion⟩)
  else .error .pyTypeError

/-- `upload_document` (src/main.py lines 106–186): reject unsupported
extensions, reject extraction output that is empty after stripping, chunk,
embed in concurrent batches, then apply the replace-on-same-filename
versioning and insert the new document and chunks.  Text extraction itself
and the raw 20 MB size check act on the uploaded bytes and are collaborator
concerns; the handler is modelled from the extracted text on. -/
def upload_document (encode : String → List Nat) (decode : List Nat → String)
    (embed : String → E) (newId : Nat) (st : Store E) (filename rawText : String) :
    Except ApiError (Store E × DocResponse) :=
  if (SUPPORTED_EXTENSIONS.find? fun e => e.data.isSuffixOf (pyLower filename)).isNone then
    .error .unsupportedType
  else if pyStrip rawText = "" then
    .error .unprocessable
  else
    let chunks := chunk_text encode decode rawText
    let all_embeddings := ((toBatches BATCH_SIZE chunks).map (embed_texts embed)).flatten
    match st.documents.find? fun d => d.filename == filename with
    | some existing =>
        -- `next_version = existing_doc.version + 1` (line 159): `version` is
        -- not an attribute of the Document model, hence AttributeError.
        if "version" ∈ documentAttrs then
          let st1 : Store E :=
            ⟨st.documents.filter fun d => d.id != existing.id,
             st.chunks.filter fun c => c.document_id != existing.id⟩
          insertNewDocument st1 newId filename (existing.version + 1) chunks all_embeddings
        else .error .pyAttributeError
    | none => insertNewDocument st newId filename 1 chunks all_embeddings

def isErrorResult : Except ε α → Bool
  | .error _ => true
  | .ok _ => false

/-- `delete_document` (src/main.py lines 205–217): a string that does not
parse as a UUID is answered with HTTP 400; a missing document with 404; an
existing one is deleted together with its chunks (the
`cascade="all, delete-orphan"` relationship of src/database.py line 25). -/
def delete_document (st : Store E) (documentId : String) : Except ApiError (Store E) :=
  match parseUUID documentId with
  | none => .error .badRequest
  | some u =>
    match st.documents.find? fun d => d.id == u with
    | none => .error .notFound
    | some _ =>
        .ok ⟨st.documents.filter fun d => d.id != u,
             st.chunks.filter fun c => c.document_id != u⟩

/-- The request body of `/api/chat` (src/main.py lines 93–96).  Pydantic
validates only the field types: `top_k` is a plain `int` with default 5 and
no positivity constraint, so any integer passes request validation. -/
structure ChatRequest where
  question : String
  document_ids : Option (List String)
  top_k : Int
  deriving DecidableEq

structure RetrievedRow where
  content : String
  filename : String
  distance : Int
  deriving DecidableEq

def rowLE (a b : RetrievedRow) : Prop :=
  a.distance ≤ b.distance

instance : DecidableRel rowLE := fun a b => Int.decLe a.distance b.distance

instance : IsTotal RetrievedRow rowLE :=
  ⟨fun a b => Int.le_total a.distance b.distance⟩

instance : IsTrans RetrievedRow rowLE :=
  ⟨fun _ _ _ h1 h2 => Int.le_trans h1 h2⟩

/-- The id normalization in `chat` (src/main.py lines 267–274): keep the
non-empty strings that stay non-empty after stripping, strip them, keep the
ones that parse as UUIDs, and silently drop the rest. -/
def normalizeDocIds (ids : List String) : List Nat :=
  ((ids.filter fun s => !(s == "") && !(pyStrip s == "")).map pyStrip).filterMap parseUUID

/-- The candidate rows of the vector query (src/main.py lines 276–301): every
chunk inner-joined with its owning document, carrying content, the owning
document's filename, and the distance `c.embedding <=> :embedding` computed
against the query embedding.  When the normalized id list is nonempty, the
`WHERE c.document_id IN :doc_ids` clause restricts to chunks of those
documents; the code issues that SQL exactly when the list is nonempty and the
unfiltered SQL otherwise, so the empty list means no filter. -/
def candidateRows (dist : E → E → Int) (qemb : E) (st : Store E) (docIds : List Nat) :
    List RetrievedRow :=
  st.chunks.filterMap fun c =>
    match st.documents.find? fun d => d.id == c.document_id with
    | some d =>
        if docIds.isEmpty || docIds.contains c.document_id then
          some ⟨c.content, d.filename, dist c.embedding qemb⟩
        else none
    | none => none

/-- `chat` (src/main.py lines 253–316) up to the answer-streaming step (a
collaborator): embed the question, normalize the scoping ids, run the vector
query with `ORDER BY distance ASC LIMIT top_k` — the database rejects a
negative `LIMIT` — and answer 404 when no rows come back.  The returned rows
are the context handed to the answer streamer. -/
def chat (dist : E → E → Int) (embedQ : String → E) (st : Store E) (req : ChatRequest) :
    Except ApiError (List RetrievedRow) :=
  let qemb := embedQ req.question
  let ids := normalizeDocIds (req.document_ids.getD [])
  if req.top_k < 0 then .error .dbError
  else
    let results := (List.insertionSort rowLE (candidateRows dist qemb st ids)).take req.top_k.toNat
    if results.isEmpty then .error .notFound else .ok results

theorem chunkLoop_unfold (tokens : List α) (start : Nat) :
    chunkLoop tokens start =
      if start < tokens.length then
        if start + (CHUNK_SIZE - CHUNK_OVERLAP) < tokens.length ∧
            tokens.length - (start + (CHUNK_SIZE - CHUNK_OVERLAP)) < MIN_TAIL then
          [(tokens.drop start).take CHUNK_SIZE, tokens.drop (start + (CHUNK_SIZE - CHUNK_OVERLAP))]
        else
          (tokens.drop start).take CHUNK_SIZE :: chunkLoop tokens (start + (CHUNK_SIZE - CHUNK_OVERLAP))
      else [] := by
  rw [chunkLoop]
  by_cases h : start < tokens.length <;> simp [h]

theorem naiveLoop_unfold (tokens : List α) (start : Nat) :
    naiveLoop tokens start =
      if start < tokens.length then
        (tokens.drop start).take CHUNK_SIZE :: naiveLoop tokens (start + (CHUNK_SIZE - CHUNK_OVERLAP))
      else [] := by
  rw [naiveLoop]
  by_cases h : start < tokens.length <;> simp [h]

/-- When the tail guard fires, the body of the next naive iteration would have
produced the whole remaining tail, and that is the last iteration. -/
theorem naiveLoop_tail (tokens : List α) (next : Nat)
    (h1 : next < tokens.length) (h2 : tokens.length - next < MIN_TAIL) :
    naiveLoop tokens next = [tokens.drop next] := by
  rw [naiveLoop_unfold, if_pos h1, naiveLoop_unfold, if_neg]
  · have hlen : (tokens.drop next).length = tokens.length - next := List.length_drop ..
    have : (tokens.drop next).take CHUNK_SIZE = tokens.drop next := by
      apply List.take_of_length_le
      rw [hlen]
      simp only [MIN_TAIL] at h2
      simp only [CHUNK_SIZE]
      omega
    rw [this]
  · simp only [CHUNK_SIZE, CHUNK_OVERLAP, MIN_TAIL] at *
    omega

/-- The tail branch of `chunk_text` appends exactly the chunk the next naive
iteration would have produced and then stops, so the loop with the tail branch
is extensionally the naive loop. -/
theorem chunkLoop_eq_naiveLoop (tokens : List α) (start : Nat) :
    chunkLoop tokens start = naiveLoop tokens start := by
  rw [chunkLoop_unfold, naiveLoop_unfold]
  by_cases h : start < tokens.length
  · rw [if_pos h, if_pos h]
    by_cases h2 : start + (CHUNK_SIZE - CHUNK_OVERLAP) < tokens.length ∧
        tokens.length - (start + (CHUNK_SIZE - CHUNK_OVERLAP)) < MIN_TAIL
    · rw [if_pos h2, naiveLoop_tail tokens _ h2.1 h2.2]
    · rw [if_neg h2, chunkLoop_eq_naiveLoop tokens (start + (CHUNK_SIZE - CHUNK_OVERLAP))]
  · rw [if_neg h, if_neg h]
termination_by tokens.length - start
decreasing_by
  simp only [CHUNK_SIZE, CHUNK_OVERLAP]
  omega

theorem chunkTokens_eq_naiveChunks (tokens : List α) :
    chunkTokens tokens = naiveChunks tokens :=
  chunkLoop_eq_naiveLoop tokens 0

theorem naiveLoop_stop (l : List α) (s : Nat) (h : l.length ≤ s) :
    naiveLoop l s = [] := by
  rw [naiveLoop_unfold, if_neg (by omega)]

theorem naiveLoop_step (l : List α) (s : Nat) (h : s < l.length) :
    naiveLoop l s = (l.drop s).take CHUNK_SIZE :: naiveLoop l (s + 450) := by
  rw [naiveLoop_unfold, if_pos h]
  norm_num [CHUNK_SIZE, CHUNK_OVERLAP]

/-- Position `i` of the naive windowing list is the window starting at token
`s + 450 * i` when that start is in range, and absent otherwise. -/
theorem naiveLoop_getElem (l : List α) : ∀ (i s : Nat),
    (naiveLoop l s)[i]? =
      if s + 450 * i < l.length then some ((l.drop (s + 450 * i)).take CHUNK_SIZE) else none
  | 0, s => by
      by_cases h : s < l.length
      · rw [naiveLoop_step l s h]
        simp [h]
      · rw [naiveLoop_stop l s (by omega), if_neg (by omega)]
        simp
  | i + 1, s => by
      by_cases h : s < l.length
      · rw [naiveLoop_step l s h, List.getElem?_cons_succ, naiveLoop_getElem l i (s + 450)]
        have harith : s + 450 + 450 * i = s + 450 * (i + 1) := by ring
        rw [harith]
      · rw [naiveLoop_stop l s (by omega), if_neg (by omega)]
        simp

/-- Dropping the first `CHUNK_OVERLAP` tokens of every naive window starting
from `s` and concatenating yields exactly the tokens from position
`s + CHUNK_OVERLAP` on. -/
theorem naiveLoop_dedup_flatten (l : List α) (s : Nat) :
    ((naiveLoop l s).map (List.drop CHUNK_OVERLAP)).flatten = l.drop (s + CHUNK_OVERLAP) := by
  by_cases h : s < l.length
  · rw [naiveLoop_step l s h]
    simp only [List.map_cons, List.flatten_cons]
    rw [naiveLoop_dedup_flatten l (s + 450)]
    have h1 : ((l.drop s).take CHUNK_SIZE).drop CHUNK_OVERLAP
        = (l.drop (s + CHUNK_OVERLAP)).take 450 := by
      rw [List.drop_take, List.drop_drop]
      norm_num [CHUNK_SIZE, CHUNK_OVERLAP]
    have h2 : l.drop (s + 450 + CHUNK_OVERLAP) = (l.drop (s + CHUNK_OVERLAP)).drop 450 := by
      rw [List.drop_drop]
      have : s + CHUNK_OVERLAP + 450 = s + 450 + CHUNK_OVERLAP := by ring
      rw [this]
    rw [h1, h2, List.take_append_drop]
  · rw [naiveLoop_stop l s (by omega)]
    have : l.drop (s + CHUNK_OVERLAP) = [] := List.drop_eq_nil_iff.mpr (by omega)
    simp [this]
termination_by l.length - s
decreasing_by omega

theorem dedupFlatten_naiveChunks (l : List α) : dedupFlatten (naiveChunks l) = l := by
  by_cases h : 0 < l.length
  · rw [naiveChunks, naiveLoop_step l 0 h]
    rw [dedupFlatten]
    rw [naiveLoop_dedup_flatten l (0 + 450)]
    have h450 : 0 + 450 + CHUNK_OVERLAP = CHUNK_SIZE := by norm_num [CHUNK_SIZE, CHUNK_OVERLAP]
    rw [h450]
    simp only [List.drop_zero]
    exact List.take_append_drop CHUNK_SIZE l
  · rw [naiveChunks, naiveLoop_stop l 0 (by omega)]
    have : l = [] := List.length_eq_zero.mp (by omega)
    simp [dedupFlatten, this]

/-- C5.  For every input token sequence, de-duplicated concatenation of the
chunks emitted by `chunk_text` reconstructs the original token sequence in
order, and every original token appears in at least one chunk; in particular
an input of zero tokens yields no chunks, hence the empty sequence. -/
theorem chunk_coverage (l : List α) :
    dedupFlatten (chunkTokens l) = l ∧
    ∀ x, x ∈ l → ∃ c, c ∈ chunkTokens l ∧ x ∈ c := by
  have hmain : dedupFlatten (chunkTokens l) = l := by
    rw [chunkTokens_eq_naiveChunks]
    exact dedupFlatten_naiveChunks l
  refine ⟨hmain, fun x hx => ?_⟩
  rw [← hmain] at hx
  cases hck : chunkTokens l with
  | nil => rw [hck] at hx; simp [dedupFlatten] at hx
  | cons c rest =>
      rw [hck] at hx
      simp only [dedupFlatten, List.mem_append] at hx
      rcases hx with hx | hx
      · exact ⟨c, by simp [hck], hx⟩
      · rw [List.mem_flatten] at hx
        obtain ⟨d, hd, hxd⟩ := hx
        rw [List.mem_map] at hd
        obtain ⟨c', hc', rfl⟩ := hd
        exact ⟨c', by simp [hck, hc'], List.mem_of_mem_drop hxd⟩

/-- C5 witness: the coverage theorem applied at the concrete input
`[10, 20, 30]`, discharging the membership hypothesis at the token `20`. -/
theorem chunk_coverage_witness :
    dedupFlatten (chunkTokens [10, 20, 30]) = [10, 20, 30] ∧
    ∃ c, c ∈ chunkTokens [10, 20, 30] ∧ 20 ∈ c :=
  ⟨(chunk_coverage [10, 20, 30]).1, (chunk_coverage [10, 20, 30]).2 20 (by decide)⟩

/-- C6.  For consecutive chunks `i` and `i + 1` emitted by `chunk_text` that
are both full-window (`CHUNK_SIZE` tokens) chunks, the last `CHUNK_OVERLAP`
tokens of chunk `i` equal the first `CHUNK_OVERLAP` tokens of chunk `i + 1`. -/
theorem chunk_overlap (l : List α) (i : Nat) (ci cj : List α)
    (hi : (chunkTokens l)[i]? = some ci) (hj : (chunkTokens l)[i + 1]? = some cj)
    (hci : ci.length = CHUNK_SIZE) (hcj : cj.length = CHUNK_SIZE) :
    ci.drop (ci.length - CHUNK_OVERLAP) = cj.take CHUNK_OVERLAP := by
  rw [chunkTokens_eq_naiveChunks, naiveChunks, naiveLoop_getElem l i 0] at hi
  rw [chunkTokens_eq_naiveChunks, naiveChunks, naiveLoop_getElem l (i + 1) 0] at hj
  by_cases h1 : 0 + 450 * i < l.length
  · rw [if_pos h1] at hi
    by_cases h2 : 0 + 450 * (i + 1) < l.length
    · rw [if_pos h2] at hj
      have hci' : ci = (l.drop (0 + 450 * i)).take CHUNK_SIZE := by
        injection hi with hi'; exact hi'.symm
      have hcj' : cj = (l.drop (0 + 450 * (i + 1))).take CHUNK_SIZE := by
        injection hj with hj'; exact hj'.symm
      subst hci' hcj'
      rw [hci, List.drop_take, List.drop_drop, List.take_take]
      have e1 : CHUNK_SIZE - (CHUNK_SIZE - CHUNK_OVERLAP) = CHUNK_OVERLAP := by
        norm_num [CHUNK_SIZE, CHUNK_OVERLAP]
      have e2 : 0 + 450 * i + (CHUNK_SIZE - CHUNK_OVERLAP) = 0 + 450 * (i + 1) := by
        norm_num [CHUNK_SIZE, CHUNK_OVERLAP]; ring
      have e3 : CHUNK_OVERLAP ⊓ CHUNK_SIZE = CHUNK_OVERLAP := by
        norm_num [CHUNK_SIZE, CHUNK_OVERLAP]
      rw [e1, e2, e3]
    · rw [if_neg h2] at hj; exact absurd hj (by simp)
  · rw [if_neg h1] at hi; exact absurd hi (by simp)

/-- C6 witness: the overlap theorem applied to the two full-window chunks of a
950-token input (windows `[0, 500)` and `[450, 950)`). -/
theorem chunk_overlap_witness :
    (chunkTokens (List.range 950))[0]? = some ((List.range 950).take CHUNK_SIZE) ∧
    (chunkTokens (List.range 950))[1]? = some (((List.range 950).drop 450).take CHUNK_SIZE) ∧
    ((List.range 950).take CHUNK_SIZE).drop (((List.range 950).take CHUNK_SIZE).length - CHUNK_OVERLAP)
      = (((List.range 950).drop 450).take CHUNK_SIZE).take CHUNK_OVERLAP := by
  have h0 : (chunkTokens (List.range 950))[0]? = some ((List.range 950).take CHUNK_SIZE) := by
    rw [chunkTokens_eq_naiveChunks, naiveChunks, naiveLoop_getElem (List.range 950) 0 0,
      if_pos (by simp)]
    simp
  have h1 : (chunkTokens (List.range 950))[1]? = some (((List.range 950).drop 450).take CHUNK_SIZE) := by
    rw [chunkTokens_eq_naiveChunks, naiveChunks, naiveLoop_getElem (List.range 950) 1 0,
      if_pos (by simp)]
  refine ⟨h0, h1, chunk_overlap (List.range 950) 0 _ _ h0 h1 ?_ ?_⟩
  · simp [CHUNK_SIZE]
  · simp [CHUNK_SIZE]

/-- Naive windowing of an input whose token count lies in `(450, 900]`
produces exactly the two windows starting at 0 and 450. -/
theorem naiveChunks_two (l : List α) (h1 : 450 < l.length) (h2 : l.length ≤ 900) :
    naiveChunks l = [l.take CHUNK_SIZE, (l.drop 450).take CHUNK_SIZE] := by
  rw [naiveChunks, naiveLoop_step l 0 (by omega), naiveLoop_step l (0 + 450) (by omega),
    naiveLoop_stop l (0 + 450 + 450) (by omega)]
  simp

/-- C1 (code divergence).  On a 460-token input the final remainder is
`460 − 450 = 10 ∈ (0, MIN_TAIL)`, yet `chunk_text` emits exactly as many
chunks as naive windowing (two, not one), and the last emitted chunk is the
bare 10-token tail, shorter than `MIN_TAIL` — the tail branch appends the tail
as a separate chunk instead of merging it into the previous chunk as the
comment in `chunk_text` describes. -/
theorem tail_merge_divergence :
    (chunkTokens (List.range 460)).length = (naiveChunks (List.range 460)).length ∧
    (chunkTokens (List.range 460)).length = 2 ∧
    (chunkTokens (List.range 460)).getLast? = some ((List.range 460).drop 450) ∧
    ((List.range 460).drop 450).length = 10 ∧ 10 < MIN_TAIL := by
  have htwo : naiveChunks (List.range 460) =
      [(List.range 460).take CHUNK_SIZE, ((List.range 460).drop 450).take CHUNK_SIZE] :=
    naiveChunks_two (List.range 460) (by simp) (by simp)
  have htail : ((List.range 460).drop 450).take CHUNK_SIZE = (List.range 460).drop 450 :=
    List.take_of_length_le (by simp [CHUNK_SIZE])
  refine ⟨by rw [chunkTokens_eq_naiveChunks], ?_, ?_, by simp, by norm_num [MIN_TAIL]⟩
  · rw [chunkTokens_eq_naiveChunks, htwo]; rfl
  · rw [chunkTokens_eq_naiveChunks, htwo, htail]; rfl

/-- Whether an input of fewer than `MIN_TAIL` tokens yields exactly one chunk
(the loop body runs once and the tail guard cannot fire). -/
theorem chunkTokens_small (l : List α) (h0 : 0 < l.length) (h : l.length < MIN_TAIL) :
    chunkTokens l = [l.take CHUNK_SIZE] := by
  rw [chunkTokens_eq_naiveChunks, naiveChunks, naiveLoop_step l 0 h0,
    naiveLoop_stop l (0 + 450) (by simp only [MIN_TAIL] at h; omega)]
  simp

/-- C10.  `chunk_text` is extensionally plain naive windowing: the two loops
agree on every input, and whenever the tail guard fires (remaining tokens
after advancing positive but below `MIN_TAIL`) the appended tail is exactly
the window the next naive iteration would have produced, and its tokens are a
suffix of the previous chunk's tokens. -/
theorem chunk_text_refines_naive (l : List α) :
    chunkTokens l = naiveChunks l ∧
    ∀ start, start < l.length →
      start + (CHUNK_SIZE - CHUNK_OVERLAP) < l.length →
      l.length - (start + (CHUNK_SIZE - CHUNK_OVERLAP)) < MIN_TAIL →
      l.drop (start + (CHUNK_SIZE - CHUNK_OVERLAP)) =
          (l.drop (start + (CHUNK_SIZE - CHUNK_OVERLAP))).take CHUNK_SIZE ∧
        (l.drop (start + (CHUNK_SIZE - CHUNK_OVERLAP))).IsSuffix ((l.drop start).take CHUNK_SIZE) := by
  refine ⟨chunkTokens_eq_naiveChunks l, fun start h1 h2 h3 => ?_⟩
  simp only [CHUNK_SIZE, CHUNK_OVERLAP, MIN_TAIL] at *
  have hwhole : (l.drop start).take 500 = l.drop start :=
    List.take_of_length_le (by rw [List.length_drop]; omega)
  constructor
  · exact (List.take_of_length_le (by rw [List.length_drop]; omega)).symm
  · rw [hwhole]
    have : l.drop (start + 450) = (l.drop start).drop 450 := by
      rw [List.drop_drop]
    rw [this]
    exact List.drop_suffix 450 (l.drop start)

/-- C10 witness: the refinement theorem applied to a 460-token input at loop
position 0, where the tail guard fires with a 10-token remainder. -/
theorem chunk_text_refines_naive_witness :
    chunkTokens (List.range 460) = naiveChunks (List.range 460) ∧
    (List.range 460).drop (0 + (CHUNK_SIZE - CHUNK_OVERLAP)) =
        ((List.range 460).drop (0 + (CHUNK_SIZE - CHUNK_OVERLAP))).take CHUNK_SIZE ∧
      ((List.range 460).drop (0 + (CHUNK_SIZE - CHUNK_OVERLAP))).IsSuffix
        (((List.range 460).drop 0).take CHUNK_SIZE) :=
  ⟨(chunk_text_refines_naive (List.range 460)).1,
   (chunk_text_refines_naive (List.range 460)).2 0
     (by simp) (by simp [CHUNK_SIZE, CHUNK_OVERLAP]) (by simp [CHUNK_SIZE, CHUNK_OVERLAP, MIN_TAIL])⟩

theorem toBatches_stop (n : Nat) (l : List α) (h : l = [] ∨ n = 0) :
    toBatches n l = [] := by
  rw [toBatches, dif_pos (by simpa [List.isEmpty_iff] using h)]

theorem toBatches_step (n : Nat) (l : List α) (h1 : l ≠ []) (h2 : n ≠ 0) :
    toBatches n l = l.take n :: toBatches n (l.drop n) := by
  rw [toBatches, dif_neg (by simp [List.isEmpty_iff, h1, h2])]

/-- Embedding every batch and flattening in batch order embeds the original
list elementwise, in the original order. -/
theorem flatten_batches_eq_map (embed : σ → E) (n : Nat) (hn : n ≠ 0) (l : List σ) :
    ((toBatches n l).map (embed_texts embed)).flatten = l.map embed := by
  by_cases h : l = []
  · rw [toBatches_stop n l (Or.inl h), h]
    simp
  · rw [toBatches_step n l h hn]
    simp only [List.map_cons, List.flatten_cons]
    rw [flatten_batches_eq_map embed n hn (l.drop n)]
    show (l.take n).map embed ++ (l.drop n).map embed = l.map embed
    rw [← List.map_append, List.take_append_drop]
termination_by l.length
decreasing_by
  have hl : 0 < l.length := List.length_pos.mpr h
  rw [List.length_drop]
  omega

theorem mapM_option_of_map {g : α → Option β} {f : α → β} :
    ∀ {l : List α}, (∀ a ∈ l, g a = some (f a)) → l.mapM g = some (l.map f)
  | [], _ => rfl
  | a :: l, h => by
      rw [List.mapM_cons, h a (by simp)]
      rw [mapM_option_of_map fun b hb => h b (by simp [hb])]
      rfl

/-- If the completed calls are exactly the indexed batch results in some
(arbitrary completion) order, the lookup at index `i` finds result `i`. -/
theorem find?_perm_enum [Inhabited β] {rs : List β} {completed : List (Nat × β)}
    (hp : completed.Perm rs.enum) {i : Nat} (hi : i < rs.length) :
    (completed.find? fun p => p.1 == i) = some (i, rs.getD i default) := by
  have hmem : (i, rs.getD i default) ∈ completed := by
    rw [hp.mem_iff, List.mem_enum_iff_getElem?]
    rw [List.getElem?_eq_getElem hi, List.getD_eq_getElem rs default hi]
  have hsome : (completed.find? fun p => p.1 == i).isSome = true :=
    List.find?_isSome.mpr ⟨(i, rs.getD i default), hmem, by simp⟩
  obtain ⟨a, ha⟩ := Option.isSome_iff_exists.mp hsome
  have hkey : a.1 = i := by
    have := List.find?_some ha
    simpa using this
  have hval : rs[a.1]? = some a.2 := by
    rw [← List.mem_enum_iff_getElem?, ← hp.mem_iff]
    exact List.mem_of_find?_eq_some ha
  rw [hkey, List.getElem?_eq_getElem hi] at hval
  have : a = (i, rs.getD i default) := by
    rcases a with ⟨a1, a2⟩
    simp only at hkey hval
    rw [List.getD_eq_getElem rs default hi]
    simp only [Prod.mk.injEq]
    exact ⟨hkey, by injection hval with h; exact h.symm⟩
  rw [ha, this]

/-- Gathering by argument index recovers the batch results in batch order, for
every completion order. -/
theorem gatherByIndex_perm_enum [Inhabited β] {rs : List β} {completed : List (Nat × β)}
    (hp : completed.Perm rs.enum) :
    gatherByIndex rs.length completed = some rs := by
  rw [gatherByIndex]
  rw [mapM_option_of_map (f := fun i => rs.getD i default) ?_]
  · congr 1
    refine List.ext_getElem (by simp) fun n h1 h2 => ?_
    rw [List.getElem_map, List.getElem_range]
    exact List.getD_eq_getElem rs default h2
  · intro i hi
    rw [List.mem_range] at hi
    rw [find?_perm_enum hp hi]
    rfl

/-- C7.  Partitioning an ordered chunk list into batches of `BATCH_SIZE = 20`,
embedding each batch (the collaborator preserving order within a batch), and
gathering the concurrent batch calls — in whatever order they complete —
yields exactly the elementwise embedding of the input: same length, `i`-th
vector the embedding of the `i`-th text. -/
theorem embed_many_order_preserving [Inhabited E] (embed : σ → E) (chunks : List σ)
    (completed : List (Nat × List E))
    (hp : completed.Perm ((toBatches BATCH_SIZE chunks).map (embed_texts embed)).enum) :
    (gatherByIndex ((toBatches BATCH_SIZE chunks).map (embed_texts embed)).length completed).map
        List.flatten = some (chunks.map embed) ∧
    (chunks.map embed).length = chunks.length := by
  rw [gatherByIndex_perm_enum hp]
  refine ⟨?_, by simp⟩
  rw [Option.map_some']
  rw [flatten_batches_eq_map embed BATCH_SIZE (by norm_num [BATCH_SIZE]) chunks]

/-- C7 witness: 25 texts split into batches of 20; the two batch calls
complete in reversed order, yet the gathered, flattened result is the
elementwise embedding. -/
theorem embed_many_order_preserving_witness :
    (gatherByIndex ((toBatches BATCH_SIZE (List.range 25)).map (embed_texts (fun t => t + 1000))).length
        (((toBatches BATCH_SIZE (List.range 25)).map (embed_texts (fun t => t + 1000))).enum.reverse)).map
        List.flatten = some ((List.range 25).map (fun t => t + 1000)) ∧
    ((List.range 25).map (fun t => t + 1000)).length = (List.range 25).length :=
  embed_many_order_preserving (fun t => t + 1000) (List.range 25)
    (((toBatches BATCH_SIZE (List.range 25)).map (embed_texts (fun t => t + 1000))).enum.reverse)
    (List.reverse_perm _)

theorem insertNewDocument_error (st : Store E) (newId : Nat) (filename : String)
    (v : Nat) (chunks : List String) (embs : List E) :
    insertNewDocument st newId filename v chunks embs = .error .pyTypeError := by
  rw [insertNewDocument, if_neg (by decide)]

/-- C2 (code divergence).  `upload_document` can never succeed: `main.py`
reads and writes a `version` attribute that the `Document` model of
`database.py` does not declare, so a first upload of a filename dies with
`TypeError` in the declarative constructor, a same-filename re-upload dies
with `AttributeError` on `existing_doc.version`, and no sequence of uploads
produces documents with versions `1..N`. -/
theorem upload_version_divergence :
    (∀ (E : Type) (encode : String → List Nat) (decode : List Nat → String)
      (embed : String → E) (newId : Nat) (st : Store E) (filename rawText : String),
      isErrorResult (upload_document encode decode embed newId st filename rawText) = true) ∧
    upload_document (E := Nat) (fun _ => [1, 2, 3]) (fun _ => "c") (fun _ => 0) 7
        ⟨[], []⟩ "a.txt" "hello" = .error .pyTypeError ∧
    upload_document (E := Nat) (fun _ => [1, 2, 3]) (fun _ => "c") (fun _ => 0) 7
        ⟨[⟨1, "a.txt", 1⟩], []⟩ "a.txt" "hello" = .error .pyAttributeError := by
  refine ⟨?_, rfl, rfl⟩
  intro E encode decode embed newId st filename rawText
  rw [upload_document]
  split
  · rfl
  · split
    · rfl
    · dsimp only
      split
      · rw [if_neg (by decide)]
        rfl
      · rw [insertNewDocument_error]
        rfl

/-- C3 counterexample: on a store holding one document and one chunk, a chat
request with `top_k = 0` passes request validation, runs the query with
`LIMIT 0`, gets no rows back, and fails with NotFound — not with a
ValidationError. -/
theorem chat_topk_zero_not_validation :
    chat (E := Nat) (fun a b => (a : Int) - b) (fun _ => 0)
        ⟨[⟨1, "a.txt", 1⟩], [⟨1, "hi", 3, 0⟩]⟩ ⟨"q", none, 0⟩ = .error .notFound ∧
    ApiError.notFound ≠ ApiError.validationError :=
  ⟨rfl, by decide⟩

/-- C3 (amended).  A non-positive `top_k` is accepted by request validation
and the chat operation then fails, but never with a ValidationError:
`top_k = 0` makes the query return no rows, surfacing NotFound, and
`top_k < 0` is rejected by the database, surfacing a database error. -/
theorem chat_topk_nonpositive (dist : E → E → Int) (embedQ : String → E)
    (st : Store E) (req : ChatRequest) (h : req.top_k ≤ 0) :
    (req.top_k = 0 → chat dist embedQ st req = .error .notFound) ∧
    (req.top_k < 0 → chat dist embedQ st req = .error .dbError) ∧
    chat dist embedQ st req ≠ .error .validationError := by
  have h0 : req.top_k = 0 → chat dist embedQ st req = .error .notFound := by
    intro hz
    rw [chat, if_neg (by omega)]
    dsimp only
    rw [hz]
    simp
  have hneg : req.top_k < 0 → chat dist embedQ st req = .error .dbError := by
    intro hlt
    rw [chat, if_pos hlt]
  refine ⟨h0, hneg, ?_⟩
  rcases lt_or_eq_of_le h with hlt | heq
  · rw [hneg hlt]
    simp
  · rw [h0 heq]
    simp

/-- C3 witness: the amended statement applied to the request with
`top_k = -1` on an empty store. -/
theorem chat_topk_nonpositive_witness :
    (((⟨"q", none, -1⟩ : ChatRequest).top_k = 0) →
      chat (E := Nat) (fun a b => (a : Int) - b) (fun _ => 0) ⟨[], []⟩ ⟨"q", none, -1⟩ =
        .error .notFound) ∧
    (((⟨"q", none, -1⟩ : ChatRequest).top_k < 0) →
      chat (E := Nat) (fun a b => (a : Int) - b) (fun _ => 0) ⟨[], []⟩ ⟨"q", none, -1⟩ =
        .error .dbError) ∧
    chat (E := Nat) (fun a b => (a : Int) - b) (fun _ => 0) ⟨[], []⟩ ⟨"q", none, -1⟩ ≠
      .error .validationError :=
  chat_topk_nonpositive _ _ _ _ (by decide)

/-- C4 counterexample: deleting with the malformed identifier `"zzz"` fails
with HTTP 400 (invalid document ID), not with NotFound as the claim states. -/
theorem delete_malformed_not_notFound :
    delete_document (E := Nat) ⟨[], []⟩ "zzz" = .error .badRequest ∧
    ApiError.badRequest ≠ ApiError.notFound :=
  ⟨rfl, by decide⟩

/-- C4 (amended).  `delete_document(id)` fails with BadRequest (HTTP 400) when
the id is malformed and with NotFound when no document has that id; when the
document exists, it is removed together with all of its chunks, and no chunk
with that document id remains queryable afterwards. -/
theorem delete_document_cases (st : Store E) (s : String) :
    (parseUUID s = none → delete_document st s = .error .badRequest) ∧
    (∀ u, parseUUID s = some u → (st.documents.find? fun d => d.id == u) = none →
      delete_document st s = .error .notFound) ∧
    (∀ u, parseUUID s = some u → ((st.documents.find? fun d => d.id == u)).isSome →
      ∃ st', delete_document st s = .ok st' ∧
        (∀ d, d ∈ st'.documents → d.id ≠ u) ∧
        (∀ c, c ∈ st'.chunks → c.document_id ≠ u)) := by
  refine ⟨fun hp => ?_, fun u hp hf => ?_, fun u hp hf => ?_⟩
  · rw [delete_document, hp]
  · rw [delete_document, hp]
    dsimp only
    rw [hf]
  · obtain ⟨d0, hd0⟩ := Option.isSome_iff_exists.mp hf
    rw [delete_document, hp]
    dsimp only
    rw [hd0]
    refine ⟨_, rfl, fun d hd => ?_, fun c hc => ?_⟩
    · simpa using (List.mem_filter.mp hd).2
    · simpa using (List.mem_filter.mp hc).2

/-- C4 witness: the amended statement applied to a store holding document 1
and one of its chunks, deleting by the canonical UUID string of id 1. -/
theorem delete_document_cases_witness :
    ∃ st', delete_document (E := Nat) ⟨[⟨1, "a.txt", 1⟩], [⟨1, "hi", 3, 0⟩]⟩
        "00000000-0000-0000-0000-000000000001" = .ok st' ∧
      (∀ d, d ∈ st'.documents → d.id ≠ 1) ∧
      (∀ c, c ∈ st'.chunks → c.document_id ≠ 1) :=
  (delete_document_cases ⟨[⟨1, "a.txt", 1⟩], [⟨1, "hi", 3, 0⟩]⟩
    "00000000-0000-0000-0000-000000000001").2.2 1 (by decide) (by decide)

/-- C8.  A chat request whose `document_ids` contains only strings that fail
UUID parsing (after stripping) is answered exactly like the same request with
no `document_ids` at all: the invalid ids are silently dropped, which empties
the scoping set, and the query falls back to the unscoped search over the
full corpus. -/
theorem chat_invalid_ids_unscoped (dist : E → E → Int) (embedQ : String → E)
    (st : Store E) (q : String) (k : Int) (ids : List String)
    (h : ∀ s, s ∈ ids → parseUUID (pyStrip s) = none) :
    chat dist embedQ st ⟨q, some ids, k⟩ = chat dist embedQ st ⟨q, none, k⟩ := by
  have hn : normalizeDocIds ids = normalizeDocIds [] := by
    rw [normalizeDocIds, List.filterMap_eq_nil_iff.mpr ?_]
    · rfl
    · intro a ha
      rw [List.mem_map] at ha
      obtain ⟨s, hs, rfl⟩ := ha
      exact h s (List.mem_filter.mp hs).1
  simp only [chat]
  dsimp only [Option.getD]
  rw [hn]

/-- C8 witness: with only the malformed ids `"zzz"` and `"not-a-uuid"`, a chat
over a one-document corpus equals the unscoped chat. -/
theorem chat_invalid_ids_unscoped_witness :
    chat (E := Nat) (fun a b => (a : Int) - b) (fun _ => 0)
        ⟨[⟨1, "a.txt", 1⟩], [⟨1, "hi", 3, 0⟩]⟩ ⟨"q", some ["zzz", "not-a-uuid"], 5⟩ =
      chat (E := Nat) (fun a b => (a : Int) - b) (fun _ => 0)
        ⟨[⟨1, "a.txt", 1⟩], [⟨1, "hi", 3, 0⟩]⟩ ⟨"q", none, 5⟩ :=
  chat_invalid_ids_unscoped _ _ _ _ _ _ (by decide)

/-- C9.  With a positive `top_k` (the spec requires `top_k ≥ 1`): when the
candidate chunk set is empty — empty corpus, or a scoping set matching no
chunks — chat fails with NotFound rather than returning an empty result;
otherwise it succeeds with at most `top_k` rows sorted by non-decreasing
distance. -/
theorem chat_retrieval_ordering (dist : E → E → Int) (embedQ : String → E)
    (st : Store E) (req : ChatRequest) (hk : 0 < req.top_k) :
    (candidateRows dist (embedQ req.question) st
        (normalizeDocIds (req.document_ids.getD [])) = [] →
      chat dist embedQ st req = .error .notFound) ∧
    (candidateRows dist (embedQ req.question) st
        (normalizeDocIds (req.document_ids.getD [])) ≠ [] →
      ∃ rows, chat dist embedQ st req = .ok rows ∧
        rows.length ≤ req.top_k.toNat ∧ rows.Sorted rowLE) := by
  have hnneg : ¬ req.top_k < 0 := by omega
  constructor
  · intro hempty
    rw [chat, if_neg hnneg]
    dsimp only
    rw [hempty]
    simp
  · intro hne
    rw [chat, if_neg hnneg]
    dsimp only
    have hlen : (List.insertionSort rowLE
        (candidateRows dist (embedQ req.question) st
          (normalizeDocIds (req.document_ids.getD [])))).length =
        (candidateRows dist (embedQ req.question) st
          (normalizeDocIds (req.document_ids.getD []))).length :=
      List.length_insertionSort rowLE _
    have hpos : 0 < (candidateRows dist (embedQ req.question) st
        (normalizeDocIds (req.document_ids.getD []))).length :=
      List.length_pos.mpr hne
    have hknat : 0 < req.top_k.toNat := by omega
    rw [if_neg ?_]
    · refine ⟨_, rfl, ?_, ?_⟩
      · rw [List.length_take]
        exact min_le_left _ _
      · exact List.Pairwise.sublist (List.take_sublist _ _)
          (List.sorted_insertionSort rowLE _)
    · rw [List.isEmpty_iff]
      intro hcontra
      have hcl := congrArg List.length hcontra
      rw [List.length_take, hlen] at hcl
      simp only [List.length_nil] at hcl
      omega

/-- C9 witness: the retrieval theorem applied with `top_k = 5` to a corpus of
one document with one chunk, where the candidate set is nonempty. -/
theorem chat_retrieval_ordering_witness :
    ∃ rows, chat (E := Nat) (fun a b => (a : Int) - b) (fun _ => 0)
        ⟨[⟨1, "a.txt", 1⟩], [⟨1, "hi", 3, 0⟩]⟩ ⟨"q", none, 5⟩ = .ok rows ∧
      rows.length ≤ (5 : Int).toNat ∧ rows.Sorted rowLE :=
  (chat_retrieval_ordering (E := Nat) (fun a b => (a : Int) - b) (fun _ => 0)
    ⟨[⟨1, "a.txt", 1⟩], [⟨1, "hi", 3, 0⟩]⟩ ⟨"q", none, 5⟩ (by decide)).2 (by decide)

end RagSite
